import Mathlib

/-!
A shallow embedding of the lane-based crossing game in
`src/1_Hour_Crossy_Road_Challenge.py`, together with theorems checking the
specification claims about it.

Python floats are modelled as exact rationals and Python ints as integers;
the `int(...)` truncation toward zero is `pyInt`.  Randomness is made
explicit: every `random.*` call site of the source becomes a parameter (a
`Draw` record, or a stream of draws) supplied to the function that consumed
it in the source, so every definition is a pure function of the state and
of the drawn values.
-/

namespace Crossy

/-- Python `int(q)` on a float value: truncation toward zero. -/
def pyInt (q : ℚ) : ℤ := if q < 0 then ⌈q⌉ else ⌊q⌋

-- ---------- Config (source lines 17-62) ----------

def SCREEN_W : ℤ := 480

def SCREEN_H : ℤ := 720

def TILE : ℤ := 48

/-- `COLS = SCREEN_W // TILE` -/
def COLS : ℤ := SCREEN_W / TILE

def SAFE_MARGIN_ROWS : ℤ := 18

def HOP_TIME : ℚ := 12/100

/-- `PLAYER_SIZE = int(TILE * 0.70)` -/
def PLAYER_SIZE : ℤ := pyInt ((TILE : ℚ) * (70/100))

def MIN_GRASS_BETWEEN_HAZARDS : ℕ := 1

def MAX_CONSEC_ROADS : ℕ := 3

def PROB_ROAD : ℚ := 45/100

def PROB_RIVER_START : ℚ := 25/100

def GAP_MIN_TILES : ℚ := 26/10

def GAP_MAX_TILES : ℚ := 48/10

def SPAWN_JITTER : ℚ := 20/100

/-- `CAR_H = int(TILE * 0.80)` -/
def CAR_H : ℤ := pyInt ((TILE : ℚ) * (80/100))

/-- `LOG_H = int(TILE * 0.70)` -/
def LOG_H : ℤ := pyInt ((TILE : ℚ) * (70/100))

def LOG_MIN_SPEED : ℚ := 60

def LOG_MAX_SPEED : ℚ := 170

-- ---------- Geometry ----------

/-- A `pygame.Rect`: integer position and size. -/
structure Rect where
  x : ℤ
  y : ℤ
  w : ℤ
  h : ℤ
deriving DecidableEq, Repr

/-- `pygame.Rect.colliderect`: strict overlap on both axes
(touching edges do not collide). -/
def Rect.colliderect (a b : Rect) : Bool :=
  decide (a.x < b.x + b.w) && decide (b.x < a.x + a.w) &&
  decide (a.y < b.y + b.h) && decide (b.y < a.y + a.h)

-- ---------- Road cars (class Car) ----------

/-- A road car; the palette and kind fields are cosmetic and omitted. -/
structure Car where
  x : ℚ
  w : ℚ
  speed : ℚ
deriving DecidableEq, Repr

/-- `Car.rect_world`:
`y_top = lane_y_world + (TILE - CAR_H) * 0.5`;
`Rect(int(x), int(y_top), int(w), int(CAR_H))`. -/
def Car.rect_world (c : Car) (lane_y_world : ℤ) : Rect :=
  let y_top : ℚ := (lane_y_world : ℚ) + ((TILE : ℚ) - (CAR_H : ℚ)) * (1/2)
  ⟨pyInt c.x, pyInt y_top, pyInt c.w, CAR_H⟩

-- ---------- River logs (class Log) ----------

structure Log where
  x : ℚ
  w : ℚ
  speed : ℚ
  dir : ℤ
deriving DecidableEq, Repr

/-- `Log.rect_world`:
`lane_center_y = lane_y_world + TILE * 0.5`;
`y_top = lane_center_y - LOG_H * 0.5`;
`Rect(int(x), int(y_top), int(w), int(LOG_H))`. -/
def Log.rect_world (l : Log) (lane_y_world : ℤ) : Rect :=
  let lane_center_y : ℚ := (lane_y_world : ℚ) + (TILE : ℚ) * (1/2)
  let y_top : ℚ := lane_center_y - (LOG_H : ℚ) * (1/2)
  ⟨pyInt l.x, pyInt y_top, pyInt l.w, LOG_H⟩

-- ---------- Lane ----------

inductive LaneType
  | grass
  | road
  | river
deriving DecidableEq, Repr

inductive RiverMode
  | pads
  | logs
deriving DecidableEq, Repr

/-- The fields of `class Lane` read by the hazard resolver; the spawn
scheduler fields (timers and next-spawn intervals) are modelled separately
by `calc_next_road_spawn_time`. -/
structure Lane where
  row : ℤ
  type : LaneType
  river_mode : Option RiverMode
  route_col : Option ℤ
  cars : List Car
  logs : List Log
  lilypads : List ℤ
deriving DecidableEq, Repr

/-- `Lane._calc_next_road_spawn_time`, with the two `random.uniform` draws
(`gap_tiles` from `[GAP_MIN_TILES, GAP_MAX_TILES]` and the jitter from
`[-SPAWN_JITTER, SPAWN_JITTER]`) passed in:
`gap_px = gap_tiles * TILE`; `base_time = gap_px / max(1.0, road_speed)`;
`return max(0.28, base_time + jitter)`. -/
def calc_next_road_spawn_time (road_speed gap_tiles jitter : ℚ) : ℚ :=
  let gap_px := gap_tiles * (TILE : ℚ)
  let base_time := gap_px / max 1 road_speed
  max (28/100) (base_time + jitter)

/-- The pad-collecting loop of `Lane._init_river` in `"pads"` mode:
`for c in cols: if len(pads) >= limit: break;
if all(abs(c - pc) >= 2 for pc in pads): pads.append(c)`
where `limit = 1 + target_extra`. -/
def add_extra_pads (limit : ℕ) : List ℤ → List ℤ → List ℤ
  | pads, [] => pads
  | pads, c :: cs =>
    if limit ≤ pads.length then pads
    else if pads.all (fun pc => decide (2 ≤ |c - pc|)) then
      add_extra_pads limit (pads ++ [c]) cs
    else add_extra_pads limit pads cs

/-- The `"pads"` branch of `Lane._init_river`: start from the guaranteed
route column (`COLS // 2` when `route_col` is `None`), then add
`target_extra` extra pads drawn from the shuffled column list.  The
resulting list is the `lilypads` field of the lane. -/
def init_river_pads (route_col : Option ℤ) (shuffled_cols : List ℤ)
    (target_extra : ℕ) : List ℤ :=
  let rc := route_col.getD (COLS / 2)
  add_extra_pads (1 + target_extra) [rc] shuffled_cols

-- ---------- Player ----------

structure Player where
  x : ℚ
  row : ℤ
  dead : Bool
  moving : Bool
  start_x : ℚ
  start_row : ℤ
  target_x : ℚ
  target_row : ℤ
  t : ℚ
  max_row : ℤ
deriving DecidableEq, Repr

/-- `Player.reset`: `x = float((COLS // 2) * TILE + TILE // 2)`, row 0,
alive, at rest. -/
def Player.reset : Player :=
  let x : ℚ := ((COLS / 2 * TILE + TILE / 2 : ℤ) : ℚ)
  { x := x, row := 0, dead := false, moving := false,
    start_x := x, start_row := 0, target_x := x, target_row := 0,
    t := 0, max_row := 0 }

/-- `Player.current_col`: `int(self.x // TILE)`; Python `//` on floats is
the floor, so the composite is the floor of `x / TILE`. -/
def Player.current_col (p : Player) : ℤ := ⌊p.x / (TILE : ℚ)⌋

/-- `Player.try_move` (source lines 400-415). -/
def Player.try_move (p : Player) (dcol drow : ℤ) : Player :=
  if p.dead || p.moving then p
  else
    let col := p.current_col
    let new_col := col + dcol
    let new_row := p.row + drow
    if new_col < 0 ∨ COLS ≤ new_col then p
    else if new_row < -3 then p
    else
      { p with moving := true, t := 0, start_x := p.x, start_row := p.row,
               target_x := ((new_col * TILE + TILE / 2 : ℤ) : ℚ),
               target_row := new_row }

/-- `Player.update` (source lines 417-428). -/
def Player.update (p : Player) (dt : ℚ) : Player :=
  if p.dead then p
  else if p.moving then
    let t := p.t + dt / HOP_TIME
    if 1 ≤ t then
      let row := p.target_row
      { p with t := 1, moving := false, x := p.target_x, row := row,
               max_row := if p.max_row < row then row else p.max_row }
    else { p with t := t }
  else p

/-- `Player.world_pos` in the `not self.moving` case:
`(self.x, self.row * TILE + TILE // 2)`.  The in-transit case (smoothstep
easing plus a sine arc) is never read by the hazard resolver, whose road
and river branches are all guarded by `if not player.moving`. -/
def Player.world_pos_rest (p : Player) : ℚ × ℚ :=
  (p.x, (p.row * TILE + TILE / 2 : ℤ))

/-- `Player.hitbox_world` evaluated at rest:
`Rect(int(x - PLAYER_SIZE // 2), int(y - PLAYER_SIZE // 2), int(PLAYER_SIZE),
int(PLAYER_SIZE))`. -/
def Player.hitbox_world_rest (p : Player) : Rect :=
  let x := p.world_pos_rest.1
  let y := p.world_pos_rest.2
  ⟨pyInt (x - ((PLAYER_SIZE / 2 : ℤ) : ℚ)), pyInt (y - ((PLAYER_SIZE / 2 : ℤ) : ℚ)),
   PLAYER_SIZE, PLAYER_SIZE⟩

-- ---------- Hazard resolution (main loop, source lines 634-680) ----------

/-- The per-tick hazard block of `main`, given `lane = world.lane_at(player.row)`.
Mirrors the source: nothing happens when the player is dead; the road and
river branches are each guarded by `if not player.moving`; in a river lane
`on_platform` and `carry_dx` are computed by the `"pads"` / `"logs"` branch
and then the shared tail applies the carry and the bounds check, or kills
the player when it is on no platform. -/
def resolve_hazards (lane : Lane) (p : Player) (dt : ℚ) : Player :=
  if p.dead then p
  else
    let lane_y_world := lane.row * TILE
    if lane.type = LaneType.road then
      if p.moving then p
      else if lane.cars.any
          (fun c => p.hitbox_world_rest.colliderect (c.rect_world lane_y_world)) then
        { p with dead := true }
      else p
    else if lane.type = LaneType.river then
      if p.moving then p
      else
        let px := p.world_pos_rest.1
        let py := p.world_pos_rest.2
        let platform_carry : Bool × ℚ :=
          if lane.river_mode = some RiverMode.pads then
            let pad_r : ℚ := (TILE : ℚ) * (34/100)
            (lane.lilypads.any (fun col =>
              let cx : ℚ := (col : ℚ) * (TILE : ℚ) + (TILE : ℚ) * (1/2)
              let cy : ℚ := (lane_y_world : ℚ) + (TILE : ℚ) * (1/2)
              decide ((px - cx)^2 + (py - cy)^2 ≤ (pad_r * (92/100))^2)), 0)
          else if lane.river_mode = some RiverMode.logs then
            match lane.logs.find?
                (fun l => p.hitbox_world_rest.colliderect (l.rect_world lane_y_world)) with
            | some l => (true, l.speed * (l.dir : ℚ) * dt)
            | none => (false, 0)
          else (false, 0)
        if platform_carry.1 then
          let p1 := if platform_carry.2 ≠ 0 then { p with x := p.x + platform_carry.2 } else p
          if p1.x < 0 ∨ (SCREEN_W : ℚ) < p1.x then { p1 with dead := true }
          else p1
        else { p with dead := true }
    else p

-- ---------- World: lane policy (source lines 461-545) ----------

/-- What a `Lane(row, lane_type, river_mode, route_col)` constructor call
receives from the policy: the three arguments after the row. -/
structure LaneSpec where
  type : LaneType
  river_mode : Option RiverMode
  route_col : Option ℤ
deriving DecidableEq, Repr

def grassSpec : LaneSpec := ⟨LaneType.grass, none, none⟩

/-- The policy state carried by `World` across `_choose_lane` calls.
`river_route_col` is `None` in the source until `_start_river_segment`
assigns it; it is only ever read when the mode queue is nonempty, which
implies it has been assigned, so it is modelled as a plain integer. -/
structure GenState where
  consec_roads : ℕ
  grass_since_hazard : ℕ
  river_modes_queue : List RiverMode
  river_route_col : ℤ
deriving DecidableEq, Repr

/-- The random draws a single `_choose_lane` call may consume:
`roll = random.random()`, `drift = random.choice([-1, 0, 0, 1])`,
`seg_len = random.choice([2, 3])`, `init_off = random.choice([-1, 0, 1])`. -/
structure Draw where
  roll : ℚ
  drift : ℤ
  seg_len : ℕ
  init_off : ℤ
deriving Repr

/-- The clamp `max(0, min(COLS - 1, c))` applied to the route column. -/
def clampCol (c : ℤ) : ℤ := max 0 (min (COLS - 1) c)

/-- `World._choose_lane` (with `_start_river_segment` inlined at its single
call site).  In the river-start branch the queue is
`["pads", "logs"]` for length 2 and `["pads", "logs", "pads"]` otherwise,
whose `pop(0)` is `"pads"` with the remainder kept in the state. -/
def choose_lane (s : GenState) (d : Draw) : LaneSpec × GenState :=
  match s.river_modes_queue with
  | mode :: rest =>
    let route := clampCol (s.river_route_col + d.drift)
    (⟨LaneType.river, some mode, some route⟩, ⟨0, 0, rest, route⟩)
  | [] =>
    if s.grass_since_hazard < MIN_GRASS_BETWEEN_HAZARDS then
      (grassSpec, { s with grass_since_hazard := s.grass_since_hazard + 1,
                           consec_roads := 0 })
    else if MAX_CONSEC_ROADS ≤ s.consec_roads then
      (grassSpec, { s with consec_roads := 0, grass_since_hazard := 0 })
    else if d.roll < PROB_RIVER_START then
      let rest : List RiverMode :=
        if d.seg_len = 2 then [RiverMode.logs] else [RiverMode.logs, RiverMode.pads]
      let route := clampCol (COLS / 2 + d.init_off)
      (⟨LaneType.river, some RiverMode.pads, some route⟩, ⟨0, 0, rest, route⟩)
    else if d.roll < PROB_RIVER_START + PROB_ROAD then
      (⟨LaneType.road, none, none⟩,
       { s with consec_roads := s.consec_roads + 1, grass_since_hazard := 0 })
    else
      (grassSpec, { s with consec_roads := 0,
                           grass_since_hazard := s.grass_since_hazard + 1 })

/-- The policy state after `k` further `_choose_lane` calls, fed by the
draw stream `st` starting at index `i`. -/
def gen_iter (g : GenState) (st : ℕ → Draw) (i : ℕ) : ℕ → GenState
  | 0 => g
  | k + 1 => (choose_lane (gen_iter g st i k) (st (i + k))).2

/-- The lane spec emitted by the `(k+1)`-th of the successive
`_choose_lane` calls fed by the stream `st` from index `i`. -/
def spec_iter (g : GenState) (st : ℕ → Draw) (i : ℕ) (k : ℕ) : LaneSpec :=
  (choose_lane (gen_iter g st i k) (st (i + k))).1

-- ---------- World: window maintenance (source lines 461-567) ----------

/-- The `World` fields the generator claims are about: the `lanes` dict
(modelled as an association list with distinct keys, in insertion order,
looked up by key as a dict is), the tracked `min_row` / `max_row`, and the
policy state.  Lanes are stored as the `LaneSpec` handed to the `Lane`
constructor; the per-lane random contents are modelled by
`init_river_pads` and the scheduler functions. -/
structure WorldGen where
  lanes : List (ℤ × LaneSpec)
  min_row : ℤ
  max_row : ℤ
  gen : GenState

/-- The first `while` loop of `World.ensure_rows`, run `fuel` times
(`fuel = target_max - max_row` when positive): raise `max_row` by one and
create the lane the policy chooses, one row at a time. -/
def extend_high (st : ℕ → Draw) : ℕ → WorldGen → ℕ → WorldGen
  | _, w, 0 => w
  | i, w, fuel + 1 =>
    let mr := w.max_row + 1
    let sg := choose_lane w.gen (st i)
    extend_high st (i + 1) ⟨w.lanes ++ [(mr, sg.1)], w.min_row, mr, sg.2⟩ fuel

/-- The second `while` loop of `World.ensure_rows`: lower `min_row` by one
and create an unconditional grass lane there, `fuel` times. -/
def extend_low : WorldGen → ℕ → WorldGen
  | w, 0 => w
  | w, fuel + 1 =>
    let mr := w.min_row - 1
    extend_low ⟨(mr, grassSpec) :: w.lanes, mr, w.max_row, w.gen⟩ fuel

/-- `World.ensure_rows(player_row)` (source lines 547-567): extend the high
end through the policy, extend the low end with grass, prune every row
outside `[player_row - (SAFE_MARGIN_ROWS + 6), player_row + (SAFE_MARGIN_ROWS + 10)]`,
then recompute `min_row` / `max_row` from the remaining keys (the dict is
provably nonempty there, so the `getD` defaults are never used). -/
def ensure_rows (w : WorldGen) (st : ℕ → Draw) (i : ℕ) (player_row : ℤ) : WorldGen :=
  let target_min := player_row - SAFE_MARGIN_ROWS
  let target_max := player_row + SAFE_MARGIN_ROWS
  let w1 := extend_high st i w (target_max - w.max_row).toNat
  let w2 := extend_low w1 (w1.min_row - target_min).toNat
  let prune_below := player_row - (SAFE_MARGIN_ROWS + 6)
  let prune_above := player_row + (SAFE_MARGIN_ROWS + 10)
  let kept := w2.lanes.filter
    (fun kv => decide (prune_below ≤ kv.1) && decide (kv.1 ≤ prune_above))
  let keys := kept.map Prod.fst
  { lanes := kept, min_row := keys.min?.getD w2.min_row,
    max_row := keys.max?.getD w2.max_row, gen := w2.gen }

-- ---------- World.reset (source lines 474-489) ----------

/-- The lane-building loop of `World.reset`: rows `r ≤ 1` are grass,
later rows come from successive `_choose_lane` calls.  Returns the built
association list and the final policy state; `fuel` counts the remaining
rows, starting from row `r`. -/
def reset_loop (st : ℕ → Draw) : GenState → ℕ → ℤ → ℕ → List (ℤ × LaneSpec) × GenState
  | g, _, _, 0 => ([], g)
  | g, i, r, fuel + 1 =>
    if r ≤ 1 then
      let rec_ := reset_loop st g i (r + 1) fuel
      ((r, grassSpec) :: rec_.1, rec_.2)
    else
      let sg := choose_lane g (st i)
      let rec_ := reset_loop st sg.2 (i + 1) (r + 1) fuel
      ((r, sg.1) :: rec_.1, rec_.2)

/-- `World.reset`: clear the lanes, set the window to rows `-6 .. 18`,
reset the policy counters (`consec_roads = 0`, `grass_since_hazard = 999`,
empty river queue, unset route column) and build the 25 initial lanes. -/
def World.reset (st : ℕ → Draw) : WorldGen :=
  let g0 : GenState := ⟨0, 999, [], COLS / 2⟩
  let built := reset_loop st g0 0 (-6) 25
  ⟨built.1, -6, 18, built.2⟩

-- ---------- Concrete scenario data ----------

/-- The Drifting-platform row of spec Scenario 3: one log at position 100,
width 150, moving right at 80 units per second. -/
def scn3Lane : Lane :=
  { row := 2, type := LaneType.river, river_mode := some RiverMode.logs,
    route_col := none, cars := [], logs := [⟨100, 150, 80, 1⟩], lilypads := [] }

/-- An at-rest, alive player resting on row 2 at the column-3 cell center
(x = 168), overlapping the Scenario 3 log. -/
def scn3Player : Player :=
  { Player.reset with x := 168, row := 2, start_row := 2, target_row := 2, t := 1 }

/-- The Stepping row of spec Scenario 2: reserved columns 2, 5, 7 with
route column 5 (the route column is placed first by `_init_river`). -/
def scn2Lane : Lane :=
  { row := 2, type := LaneType.river, river_mode := some RiverMode.pads,
    route_col := some 5, cars := [], logs := [], lilypads := [5, 2, 7] }

/-- The Scenario 2 player landed at column 5 (x = 264) on row 2. -/
def scn2Player5 : Player := { scn3Player with x := 264 }

/-- The Scenario 2 player landed at column 3 (x = 168) on row 2. -/
def scn2Player3 : Player := scn3Player

-- ---------- C8 ----------

/-- C8: for every road-lane speed and every draw of the gap and the jitter,
the next road spawn interval is `max(0.28, gap_tiles * TILE / max(1, speed)
+ jitter)`, hence always at least 0.28 seconds; with speed 200 and a gap of
3.7 tiles the base interval is 3.7 * 48 / 200 = 0.888 s and the returned
interval is 0.888 + jitter, within the jitter band around 0.888 s. -/
theorem c8_road_spawn_interval (road_speed gap_tiles jitter : ℚ) :
    calc_next_road_spawn_time road_speed gap_tiles jitter
      = max (28/100) (gap_tiles * (TILE : ℚ) / max 1 road_speed + jitter)
    ∧ (28/100 : ℚ) ≤ calc_next_road_spawn_time road_speed gap_tiles jitter
    ∧ (-SPAWN_JITTER ≤ jitter → jitter ≤ SPAWN_JITTER →
        calc_next_road_spawn_time 200 (37/10) jitter = 888/1000 + jitter
        ∧ |calc_next_road_spawn_time 200 (37/10) jitter - 888/1000| ≤ SPAWN_JITTER) := by
  refine ⟨rfl, le_max_left _ _, fun h1 h2 => ?_⟩
  have hSJ : SPAWN_JITTER = 20/100 := rfl
  rw [hSJ] at h1 h2
  have hval : calc_next_road_spawn_time 200 (37/10) jitter = 888/1000 + jitter := by
    show max (28/100) ((37/10 : ℚ) * (TILE : ℚ) / max 1 200 + jitter) = 888/1000 + jitter
    have hb : (37/10 : ℚ) * (TILE : ℚ) / max 1 200 = 888/1000 := by
      rw [show max (1 : ℚ) 200 = 200 from max_eq_right (by norm_num)]
      norm_num [TILE]
    rw [hb, max_eq_right (by linarith)]
  refine ⟨hval, ?_⟩
  rw [hval, hSJ, abs_le]
  constructor <;> linarith

/-- Witness for C8 at jitter 0. -/
theorem c8_road_spawn_interval_witness :
    calc_next_road_spawn_time 200 (37/10) 0 = 888/1000
    ∧ |calc_next_road_spawn_time 200 (37/10) 0 - 888/1000| ≤ SPAWN_JITTER := by
  have h := (c8_road_spawn_interval 200 (37/10) 0).2.2
    (by norm_num [SPAWN_JITTER]) (by norm_num [SPAWN_JITTER])
  simpa using h

-- ---------- C2 ----------

/-- C2: hazard resolution never mutates the player while it is in transit:
whenever `player.moving` holds, the resolver returns the player unchanged,
whatever the lane is. -/
theorem c2_resolver_noop_in_transit (lane : Lane) (p : Player) (dt : ℚ)
    (hm : p.moving = true) : resolve_hazards lane p dt = p := by
  unfold resolve_hazards
  simp only [hm]
  split_ifs <;> rfl

/-- Witness for C2: a player mid-hop on the Scenario 3 log lane is left
untouched by the resolver. -/
theorem c2_resolver_noop_in_transit_witness :
    resolve_hazards scn3Lane { scn3Player with moving := true } (1/10)
      = { scn3Player with moving := true } :=
  c2_resolver_noop_in_transit scn3Lane { scn3Player with moving := true } (1/10) rfl

-- ---------- C1 ----------

/-- Appending-only pad collection preserves membership. -/
theorem add_extra_pads_mem (limit : ℕ) (x : ℤ) :
    ∀ (cs pads : List ℤ), x ∈ pads → x ∈ add_extra_pads limit pads cs := by
  intro cs
  induction cs with
  | nil => intro pads h; simpa [add_extra_pads] using h
  | cons c cs ih =>
    intro pads h
    unfold add_extra_pads
    split_ifs with h1 h2
    · exact h
    · exact ih _ (List.mem_append_left _ h)
    · exact ih _ h

/-- C1: every pads river lane contains its route column among its lilypads,
and along a river segment each `_choose_lane` step moves the route column
by at most one, keeping it inside `[0, COLS - 1]`. -/
theorem c1_pads_route_and_drift :
    (∀ (rc : ℤ) (shuffled : List ℤ) (extra : ℕ),
        rc ∈ init_river_pads (some rc) shuffled extra)
    ∧ (∀ (s : GenState) (d : Draw) (mode : RiverMode) (rest : List RiverMode),
        s.river_modes_queue = mode :: rest →
        0 ≤ s.river_route_col → s.river_route_col ≤ COLS - 1 →
        -1 ≤ d.drift → d.drift ≤ 1 →
        (choose_lane s d).1.route_col = some (choose_lane s d).2.river_route_col
        ∧ |(choose_lane s d).2.river_route_col - s.river_route_col| ≤ 1
        ∧ 0 ≤ (choose_lane s d).2.river_route_col
        ∧ (choose_lane s d).2.river_route_col ≤ COLS - 1) := by
  constructor
  · intro rc shuffled extra
    unfold init_river_pads
    exact add_extra_pads_mem _ _ _ _ (by simp)
  · intro s d mode rest hq h0 h1 hd0 hd1
    have hC : COLS = 10 := by decide
    simp only [choose_lane, hq]
    refine ⟨by trivial, ?_, ?_, ?_⟩
    · rw [abs_le]
      unfold clampCol
      rw [hC] at h1 ⊢
      omega
    · unfold clampCol; omega
    · unfold clampCol
      rw [hC] at h1 ⊢
      omega

/-- Witness for C1: route column 5 with extra columns drawn from a shuffled
list, and one drift step from a mid-segment state. -/
theorem c1_pads_route_and_drift_witness :
    (5 : ℤ) ∈ init_river_pads (some 5) [0, 1, 2, 3, 4, 6, 7, 8, 9] 2
    ∧ ((choose_lane ⟨0, 0, [RiverMode.logs], 5⟩ ⟨0, 1, 2, 0⟩).1.route_col
        = some (choose_lane ⟨0, 0, [RiverMode.logs], 5⟩ ⟨0, 1, 2, 0⟩).2.river_route_col
      ∧ |(choose_lane ⟨0, 0, [RiverMode.logs], 5⟩ ⟨0, 1, 2, 0⟩).2.river_route_col - 5| ≤ 1
      ∧ 0 ≤ (choose_lane ⟨0, 0, [RiverMode.logs], 5⟩ ⟨0, 1, 2, 0⟩).2.river_route_col
      ∧ (choose_lane ⟨0, 0, [RiverMode.logs], 5⟩ ⟨0, 1, 2, 0⟩).2.river_route_col ≤ COLS - 1) :=
  ⟨c1_pads_route_and_drift.1 5 [0, 1, 2, 3, 4, 6, 7, 8, 9] 2,
   c1_pads_route_and_drift.2 ⟨0, 0, [RiverMode.logs], 5⟩ ⟨0, 1, 2, 0⟩ RiverMode.logs []
     rfl (by decide) (by decide) (by decide) (by decide)⟩

-- ---------- C5 ----------

/-- Any hazard emission resets the safe-row counter to zero. -/
theorem choose_lane_hazard_grass_zero (s : GenState) (d : Draw)
    (h : (choose_lane s d).1.type ≠ LaneType.grass) :
    (choose_lane s d).2.grass_since_hazard = 0 := by
  rcases hq : s.river_modes_queue with _ | ⟨m, rest⟩
  · simp only [choose_lane, hq] at h ⊢
    split_ifs at h ⊢ <;> first | rfl | exact absurd rfl h
  · simp [choose_lane, hq]

/-- With no river segment in progress and a zero safe-row counter, the
policy is forced to emit grass. -/
theorem choose_lane_grass_of_empty (s : GenState) (d : Draw)
    (hq : s.river_modes_queue = []) (hg : s.grass_since_hazard = 0) :
    (choose_lane s d).1 = grassSpec := by
  simp [choose_lane, hq, hg, MIN_GRASS_BETWEEN_HAZARDS]

/-- With a river segment in progress the policy always emits a river lane. -/
theorem choose_lane_river_of_queue (s : GenState) (d : Draw)
    (h : s.river_modes_queue ≠ []) :
    (choose_lane s d).1.type = LaneType.river := by
  rcases hq : s.river_modes_queue with _ | ⟨m, rest⟩
  · exact absurd hq h
  · simp [choose_lane, hq]

/-- A road lane can only be emitted outside a river segment, and it leaves
the mode queue empty. -/
theorem choose_lane_road_queue_empty (s : GenState) (d : Draw)
    (h : (choose_lane s d).1.type = LaneType.road) :
    (choose_lane s d).2.river_modes_queue = [] := by
  rcases hq : s.river_modes_queue with _ | ⟨m, rest⟩
  · simp only [choose_lane, hq] at h ⊢
    split_ifs at h ⊢ <;> rfl
  · simp [choose_lane, hq] at h

/-- C5: in the lane stream produced by successive `_choose_lane` calls, a
hazard emitted with no river segment in progress requires at least
`MIN_GRASS_BETWEEN_HAZARDS` grass rows since the last hazard; and two
consecutive hazard lanes are possible only when both are river lanes of
one in-progress river segment. -/
theorem c5_no_adjacent_hazards (s : GenState) (d1 d2 : Draw) :
    ((choose_lane s d1).1.type ≠ LaneType.grass → s.river_modes_queue = [] →
      MIN_GRASS_BETWEEN_HAZARDS ≤ s.grass_since_hazard)
    ∧ ((choose_lane s d1).1.type ≠ LaneType.grass →
       (choose_lane (choose_lane s d1).2 d2).1.type ≠ LaneType.grass →
       (choose_lane s d1).1.type = LaneType.river
       ∧ (choose_lane (choose_lane s d1).2 d2).1.type = LaneType.river
       ∧ (choose_lane s d1).2.river_modes_queue ≠ []) := by
  constructor
  · intro h1 hq
    simp only [choose_lane, hq] at h1
    split_ifs at h1 with hg hc hr hrd <;>
      first
      | exact absurd rfl h1
      | (simp only [MIN_GRASS_BETWEEN_HAZARDS] at hg ⊢; omega)
  · intro h1 h2
    have hz : (choose_lane s d1).2.grass_since_hazard = 0 :=
      choose_lane_hazard_grass_zero s d1 h1
    have hqne : (choose_lane s d1).2.river_modes_queue ≠ [] := by
      intro hq0
      exact h2 (by rw [choose_lane_grass_of_empty _ d2 hq0 hz]; rfl)
    refine ⟨?_, choose_lane_river_of_queue _ d2 hqne, hqne⟩
    cases htype : (choose_lane s d1).1.type with
    | grass => exact absurd htype h1
    | road => exact absurd (choose_lane_road_queue_empty s d1 htype) hqne
    | river => rfl

/-- Witness for C5: a mid-segment state popping pads then logs, and a
fresh river start after one grass row. -/
theorem c5_no_adjacent_hazards_witness :
    ((choose_lane ⟨0, 1, [], 5⟩ ⟨0, 1, 2, 0⟩).1.type ≠ LaneType.grass →
      MIN_GRASS_BETWEEN_HAZARDS ≤ 1)
    ∧ ((choose_lane ⟨0, 0, [RiverMode.pads, RiverMode.logs], 5⟩ ⟨0, 1, 2, 0⟩).1.type
        = LaneType.river
      ∧ (choose_lane (choose_lane ⟨0, 0, [RiverMode.pads, RiverMode.logs], 5⟩
          ⟨0, 1, 2, 0⟩).2 ⟨0, 1, 2, 0⟩).1.type = LaneType.river
      ∧ (choose_lane ⟨0, 0, [RiverMode.pads, RiverMode.logs], 5⟩
          ⟨0, 1, 2, 0⟩).2.river_modes_queue ≠ []) :=
  ⟨fun h => (c5_no_adjacent_hazards ⟨0, 1, [], 5⟩ ⟨0, 1, 2, 0⟩ ⟨0, 1, 2, 0⟩).1 h rfl,
   (c5_no_adjacent_hazards ⟨0, 0, [RiverMode.pads, RiverMode.logs], 5⟩
      ⟨0, 1, 2, 0⟩ ⟨0, 1, 2, 0⟩).2 (by simp [choose_lane]) (by simp [choose_lane])⟩

-- ---------- C7 ----------

/-- C7: `try_move` silently rejects requests while dead, while in transit,
to a column outside `[0, COLS)`, or to a row below -3, leaving the player
unchanged; otherwise it starts exactly one transit toward the requested
cell. -/
theorem c7_try_move_rejects_or_starts (p : Player) (dcol drow : ℤ) :
    (p.dead = true → p.try_move dcol drow = p)
    ∧ (p.moving = true → p.try_move dcol drow = p)
    ∧ (p.current_col + dcol < 0 ∨ COLS ≤ p.current_col + dcol →
        p.try_move dcol drow = p)
    ∧ (p.row + drow < -3 → p.try_move dcol drow = p)
    ∧ (p.dead = false → p.moving = false →
       0 ≤ p.current_col + dcol → p.current_col + dcol < COLS →
       -3 ≤ p.row + drow →
       p.try_move dcol drow =
         { p with moving := true, t := 0, start_x := p.x, start_row := p.row,
                  target_x := (((p.current_col + dcol) * TILE + TILE / 2 : ℤ) : ℚ),
                  target_row := p.row + drow }) := by
  refine ⟨fun h => ?_, fun h => ?_, fun h => ?_, fun h => ?_, fun hd hm h1 h2 h3 => ?_⟩
  · simp [Player.try_move, h]
  · simp [Player.try_move, h]
  · simp only [Player.try_move]
    split_ifs <;> rfl
  · simp only [Player.try_move]
    split_ifs <;> rfl
  · simp only [Player.try_move, hd, hm]
    split_ifs with hdm hcol hrow
    · simp at hdm
    · omega
    · omega
    · rfl

/-- Witness for C7: a rightward hop from the reset player starts one
transit toward the column-6 cell center. -/
theorem c7_try_move_rejects_or_starts_witness :
    Player.reset.try_move 1 0 =
      { Player.reset with moving := true, t := 0, start_x := Player.reset.x,
                          start_row := 0, target_x := 312, target_row := 0 } := by
  have hcol : Player.reset.current_col = 5 := by
    norm_num [Player.current_col, Player.reset, COLS, SCREEN_W, TILE]
  have h := (c7_try_move_rejects_or_starts Player.reset 1 0).2.2.2.2 rfl rfl
    (by rw [hcol]; norm_num) (by rw [hcol]; decide) (by norm_num [Player.reset])
  rw [h, hcol]
  norm_num [Player.reset, TILE]

-- ---------- C3 ----------

/-- C3 counterexample: the agent hitbox width is `int(TILE * 0.70) = 33`,
not 34 as the claim (following spec Scenario 3) states. -/
theorem c3_hitbox_width_counterexample :
    scn3Player.hitbox_world_rest.w ≠ 34 ∧ scn3Player.hitbox_world_rest.w = 33 := by
  have h : scn3Player.hitbox_world_rest.w = 33 := by
    show PLAYER_SIZE = 33
    norm_num [PLAYER_SIZE, pyInt, TILE]
  exact ⟨by rw [h]; decide, h⟩

/-- Core carry lemma for logs lanes: with the first colliding log `l`,
resolution displaces the player x by exactly `l.speed * l.dir * dt` and
kills it exactly when the displaced x leaves `[0, SCREEN_W]`. -/
theorem resolve_logs_carry (lane : Lane) (p : Player) (dt : ℚ) (l : Log)
    (hd : p.dead = false) (hm : p.moving = false)
    (ht : lane.type = LaneType.river) (hmode : lane.river_mode = some RiverMode.logs)
    (hfind : lane.logs.find? (fun lg =>
        p.hitbox_world_rest.colliderect (lg.rect_world (lane.row * TILE))) = some l) :
    (p.x + l.speed * (l.dir : ℚ) * dt < 0
        ∨ (SCREEN_W : ℚ) < p.x + l.speed * (l.dir : ℚ) * dt →
      resolve_hazards lane p dt
        = { p with x := p.x + l.speed * (l.dir : ℚ) * dt, dead := true })
    ∧ (¬(p.x + l.speed * (l.dir : ℚ) * dt < 0
          ∨ (SCREEN_W : ℚ) < p.x + l.speed * (l.dir : ℚ) * dt) →
      resolve_hazards lane p dt
        = { p with x := p.x + l.speed * (l.dir : ℚ) * dt }) := by
  have hcore : resolve_hazards lane p dt
      = (let p1 := if l.speed * (l.dir : ℚ) * dt ≠ 0
            then { p with x := p.x + l.speed * (l.dir : ℚ) * dt } else p
         if p1.x < 0 ∨ (SCREEN_W : ℚ) < p1.x then { p1 with dead := true } else p1) := by
    simp only [resolve_hazards, hd, hm, ht, hmode, hfind]
    rfl
  rw [hcore]
  by_cases hc : l.speed * (l.dir : ℚ) * dt = 0
  · rw [hc]
    constructor
    · intro hb
      simp only [if_neg (show ¬((0 : ℚ) ≠ 0) from by norm_num)]
      rw [if_pos (by simpa using hb)]
      simp
    · intro hb
      simp only [if_neg (show ¬((0 : ℚ) ≠ 0) from by norm_num)]
      rw [if_neg (by simpa using hb)]
      simp
  · rw [if_pos hc]
    constructor
    · intro hb
      rw [if_pos (by simpa using hb)]
    · intro hb
      rw [if_neg (by simpa using hb)]

/-- Evaluation of the log search on the Scenario 3 lane and player: the
player hitbox overlaps the single log. -/
theorem scn3_find : scn3Lane.logs.find? (fun lg =>
    scn3Player.hitbox_world_rest.colliderect (lg.rect_world (scn3Lane.row * TILE)))
    = some ⟨100, 150, 80, 1⟩ := by
  norm_num [List.find?, scn3Lane, scn3Player, Player.reset, Player.hitbox_world_rest,
    Player.world_pos_rest, pyInt, Rect.colliderect, Log.rect_world,
    TILE, COLS, SCREEN_W, PLAYER_SIZE, LOG_H]

/-- C3 (amended: the hitbox width is 33, not 34): on a logs river lane, for
an at-rest alive player whose hitbox intersects some log (the first such
log, as the source iterates), one resolution tick adds exactly
`log.speed * log.dir * dt` to the player x and kills the player exactly
when the displaced x leaves `[0, SCREEN_W]`; in the Scenario 3 instance
(log at 100, width 150, speed 80 rightward, dt = 0.1) the player x grows
by 8 and the player stays alive. -/
theorem c3_log_carry :
    (∀ (lane : Lane) (p : Player) (dt : ℚ) (l : Log),
      p.dead = false → p.moving = false →
      lane.type = LaneType.river → lane.river_mode = some RiverMode.logs →
      lane.logs.find? (fun lg =>
          p.hitbox_world_rest.colliderect (lg.rect_world (lane.row * TILE))) = some l →
      ((p.x + l.speed * (l.dir : ℚ) * dt < 0
          ∨ (SCREEN_W : ℚ) < p.x + l.speed * (l.dir : ℚ) * dt →
        resolve_hazards lane p dt
          = { p with x := p.x + l.speed * (l.dir : ℚ) * dt, dead := true })
      ∧ (¬(p.x + l.speed * (l.dir : ℚ) * dt < 0
            ∨ (SCREEN_W : ℚ) < p.x + l.speed * (l.dir : ℚ) * dt) →
        resolve_hazards lane p dt
          = { p with x := p.x + l.speed * (l.dir : ℚ) * dt })))
    ∧ ((resolve_hazards scn3Lane scn3Player (1/10)).x = scn3Player.x + 8
       ∧ (resolve_hazards scn3Lane scn3Player (1/10)).dead = false)
    ∧ scn3Player.hitbox_world_rest.w = PLAYER_SIZE := by
  have hscn := (resolve_logs_carry scn3Lane scn3Player (1/10) ⟨100, 150, 80, 1⟩
    rfl rfl rfl rfl scn3_find).2
    (by norm_num [scn3Player, Player.reset, SCREEN_W])
  refine ⟨fun lane p dt l hd hm ht hmode hfind =>
    resolve_logs_carry lane p dt l hd hm ht hmode hfind, ⟨?_, ?_⟩, rfl⟩
  · rw [hscn]; norm_num
  · rw [hscn]; rfl

/-- Witness for C3: the general carry statement instantiated on the
Scenario 3 lane and player. -/
theorem c3_log_carry_witness :
    resolve_hazards scn3Lane scn3Player (1/10)
      = { scn3Player with x := scn3Player.x + 80 * ((1 : ℤ) : ℚ) * (1/10) } :=
  (c3_log_carry.1 scn3Lane scn3Player (1/10) ⟨100, 150, 80, 1⟩ rfl rfl rfl rfl
    scn3_find).2 (by norm_num [scn3Player, Player.reset, SCREEN_W])

-- ---------- C4 ----------

/-- C4: on a pads river lane (with its lilypads inside the playable
columns, as generated), an at-rest alive player survives resolution
exactly when the squared distance from its center to some lilypad center
is at most `(0.92 * TILE * 0.34)^2`; the capture radius is strictly
smaller than the drawn pad radius `int(TILE * 0.34)`; on reserved columns
2, 5, 7 with route column 5, landing at column 5 survives and landing at
column 3 dies. -/
theorem c4_pads_capture :
    (∀ (lane : Lane) (p : Player) (dt : ℚ),
      p.dead = false → p.moving = false →
      lane.type = LaneType.river → lane.river_mode = some RiverMode.pads →
      (∀ c ∈ lane.lilypads, 0 ≤ c ∧ c < COLS) →
      ((resolve_hazards lane p dt).dead = false ↔
        ∃ c ∈ lane.lilypads,
          (p.world_pos_rest.1 - ((c : ℚ) * (TILE : ℚ) + (TILE : ℚ) * (1/2)))^2
            + (p.world_pos_rest.2 - (((lane.row * TILE : ℤ) : ℚ) + (TILE : ℚ) * (1/2)))^2
            ≤ ((92/100) * (TILE : ℚ) * (34/100))^2))
    ∧ (TILE : ℚ) * (34/100) * (92/100) < ((pyInt ((TILE : ℚ) * (34/100))) : ℚ)
    ∧ (resolve_hazards scn2Lane scn2Player5 (1/10)).dead = false
    ∧ (resolve_hazards scn2Lane scn2Player3 (1/10)).dead = true := by
  have hgen : ∀ (lane : Lane) (p : Player) (dt : ℚ),
      p.dead = false → p.moving = false →
      lane.type = LaneType.river → lane.river_mode = some RiverMode.pads →
      (∀ c ∈ lane.lilypads, 0 ≤ c ∧ c < COLS) →
      ((resolve_hazards lane p dt).dead = false ↔
        ∃ c ∈ lane.lilypads,
          (p.world_pos_rest.1 - ((c : ℚ) * (TILE : ℚ) + (TILE : ℚ) * (1/2)))^2
            + (p.world_pos_rest.2 - (((lane.row * TILE : ℤ) : ℚ) + (TILE : ℚ) * (1/2)))^2
            ≤ ((92/100) * (TILE : ℚ) * (34/100))^2) := by
    intro lane p dt hd hm ht hmode hcols
    rw [show (((92:ℚ)/100) * (TILE : ℚ) * (34/100))^2
        = ((TILE : ℚ) * (34/100) * (92/100))^2 from by ring]
    have hcore : resolve_hazards lane p dt
        = (if (lane.lilypads.any fun col =>
              decide ((p.world_pos_rest.1 - ((col : ℚ) * (TILE : ℚ) + (TILE : ℚ) * (1/2)))^2
                + (p.world_pos_rest.2 - (((lane.row * TILE : ℤ) : ℚ) + (TILE : ℚ) * (1/2)))^2
                ≤ ((TILE : ℚ) * (34/100) * (92/100))^2))
           then (let p1 := if ((0 : ℚ) ≠ 0) then { p with x := p.x + 0 } else p
                 if p1.x < 0 ∨ (SCREEN_W : ℚ) < p1.x then { p1 with dead := true } else p1)
           else { p with dead := true }) := by
      simp only [resolve_hazards, hd, hm, ht, hmode, Bool.false_eq_true, if_false, if_true,
        eq_self_iff_true,
        show (LaneType.river = LaneType.road) = False from by simp,
        show ((some RiverMode.pads : Option RiverMode) = some RiverMode.logs) = False
          from by simp]
    rw [hcore]
    simp only [if_neg (show ¬((0 : ℚ) ≠ 0) from by norm_num)]
    have hT48 : ((TILE : ℤ) : ℚ) = 48 := by norm_num [TILE]
    by_cases hany : (lane.lilypads.any fun col =>
        decide ((p.world_pos_rest.1 - ((col : ℚ) * (TILE : ℚ) + (TILE : ℚ) * (1/2)))^2
          + (p.world_pos_rest.2 - (((lane.row * TILE : ℤ) : ℚ) + (TILE : ℚ) * (1/2)))^2
          ≤ ((TILE : ℚ) * (34/100) * (92/100))^2)) = true
    · obtain ⟨c, hcmem, hcdist⟩ := by
        simpa only [List.any_eq_true, decide_eq_true_eq] using hany
      have hbounds : ¬(p.x < 0 ∨ (SCREEN_W : ℚ) < p.x) := by
        have hpx : p.world_pos_rest.1 = p.x := rfl
        rw [hpx, hT48] at hcdist
        have hc0 : (0 : ℚ) ≤ (c : ℚ) := by
          exact_mod_cast (hcols c hcmem).1
        have hc9 : (c : ℚ) ≤ 9 := by
          have h9 : c ≤ 9 := by
            have := (hcols c hcmem).2
            have hC : COLS = 10 := by decide
            omega
          exact_mod_cast h9
        have hsq : (p.x - ((c : ℚ) * 48 + 48 * (1/2)))^2
            ≤ (48 * (34/100) * (92/100))^2 := by
          nlinarith [sq_nonneg (p.world_pos_rest.2 - (((lane.row * TILE : ℤ) : ℚ) + 48 * (1/2)))]
        intro hcontra
        have hW : ((SCREEN_W : ℤ) : ℚ) = 480 := by norm_num [SCREEN_W]
        rcases hcontra with hlt | hgt
        · nlinarith [sq_nonneg (p.x - ((c : ℚ) * 48 + 48 * (1/2)) + 24), hsq, hc0, hlt]
        · rw [hW] at hgt
          nlinarith [sq_nonneg (p.x - ((c : ℚ) * 48 + 48 * (1/2)) - 24), hsq, hc9, hgt]
      rw [if_pos hany, if_neg hbounds]
      constructor
      · intro _
        exact ⟨c, hcmem, hcdist⟩
      · intro _
        exact hd
    · rw [if_neg hany]
      have hall : ∀ c ∈ lane.lilypads,
          ¬((p.world_pos_rest.1 - ((c : ℚ) * (TILE : ℚ) + (TILE : ℚ) * (1/2)))^2
            + (p.world_pos_rest.2 - (((lane.row * TILE : ℤ) : ℚ) + (TILE : ℚ) * (1/2)))^2
            ≤ ((TILE : ℚ) * (34/100) * (92/100))^2) := by
        have hfalse : (lane.lilypads.any fun col =>
            decide ((p.world_pos_rest.1 - ((col : ℚ) * (TILE : ℚ) + (TILE : ℚ) * (1/2)))^2
              + (p.world_pos_rest.2 - (((lane.row * TILE : ℤ) : ℚ) + (TILE : ℚ) * (1/2)))^2
              ≤ ((TILE : ℚ) * (34/100) * (92/100))^2)) = false :=
          Bool.eq_false_iff.mpr hany
        simpa only [List.any_eq_false, decide_eq_true_eq] using hfalse
      constructor
      · intro hcontra
        simp at hcontra
      · intro ⟨c, hcmem, hcdist⟩
        exact absurd hcdist (hall c hcmem)
  have h5 := hgen scn2Lane scn2Player5 (1/10) rfl rfl rfl rfl
    (by intro c hc
        simp only [scn2Lane, List.mem_cons, List.not_mem_nil, or_false] at hc
        rcases hc with rfl | rfl | rfl <;> decide)
  have h3 := hgen scn2Lane scn2Player3 (1/10) rfl rfl rfl rfl
    (by intro c hc
        simp only [scn2Lane, List.mem_cons, List.not_mem_nil, or_false] at hc
        rcases hc with rfl | rfl | rfl <;> decide)
  refine ⟨hgen, by norm_num [pyInt, TILE], ?_, ?_⟩
  · refine h5.mpr ⟨5, by simp [scn2Lane], ?_⟩
    norm_num [scn2Lane, scn2Player5, scn2Player3, scn3Player, Player.reset,
      Player.world_pos_rest, TILE, COLS, SCREEN_W]
  · by_contra hdead
    rw [Bool.not_eq_true] at hdead
    obtain ⟨c, hcmem, hcdist⟩ := h3.mp hdead
    simp only [scn2Lane, List.mem_cons, List.not_mem_nil, or_false] at hcmem
    rcases hcmem with rfl | rfl | rfl <;>
      norm_num [scn2Lane, scn2Player3, scn3Player, Player.reset,
        Player.world_pos_rest, TILE, COLS, SCREEN_W] at hcdist

/-- Witness for C4: the capture criterion instantiated on the Scenario 2
lane with the player landed at column 5. -/
theorem c4_pads_capture_witness :
    (resolve_hazards scn2Lane scn2Player5 (1/10)).dead = false ↔
      ∃ c ∈ scn2Lane.lilypads,
        (scn2Player5.world_pos_rest.1 - ((c : ℚ) * (TILE : ℚ) + (TILE : ℚ) * (1/2)))^2
          + (scn2Player5.world_pos_rest.2
              - (((scn2Lane.row * TILE : ℤ) : ℚ) + (TILE : ℚ) * (1/2)))^2
          ≤ ((92/100) * (TILE : ℚ) * (34/100))^2 :=
  c4_pads_capture.1 scn2Lane scn2Player5 (1/10) rfl rfl rfl rfl
    (by intro c hc
        simp only [scn2Lane, List.mem_cons, List.not_mem_nil, or_false] at hc
        rcases hc with rfl | rfl | rfl <;> decide)

-- ---------- C9 ----------

/-- A logs lane on row 5 whose single log spans x in `[400, 550)`. -/
def c9Lane : Lane :=
  { row := 5, type := LaneType.river, river_mode := some RiverMode.logs,
    route_col := none, cars := [], logs := [⟨400, 150, 80, 1⟩], lilypads := [] }

/-- An at-rest, alive player resting at the column-9 cell center (x = 456)
on row 5, standing on the `c9Lane` log. -/
def c9Player : Player :=
  { Player.reset with x := 456, row := 5, start_x := 456, start_row := 5,
                      target_x := 456, target_row := 5, t := 1, max_row := 5 }

/-- Evaluation of the log search on the C9 lane and player. -/
theorem c9_find : c9Lane.logs.find? (fun lg =>
    c9Player.hitbox_world_rest.colliderect (lg.rect_world (c9Lane.row * TILE)))
    = some ⟨400, 150, 80, 1⟩ := by
  norm_num [List.find?, c9Lane, c9Player, Player.reset, Player.hitbox_world_rest,
    Player.world_pos_rest, pyInt, Rect.colliderect, Log.rect_world,
    TILE, COLS, SCREEN_W, PLAYER_SIZE, LOG_H]

/-- C9 counterexample: a log carry of 24 units (speed 80, dt = 0.3) from
the column-9 cell center moves the player to x = SCREEN_W exactly; the
bounds check `x < 0 or x > SCREEN_W` does not fire, the player stays
alive, and its column index `int(x // TILE)` is COLS = 10, outside
`[0, COLS)`. -/
theorem c9_column_counterexample :
    (resolve_hazards c9Lane c9Player (3/10)).dead = false
    ∧ (resolve_hazards c9Lane c9Player (3/10)).x = ((SCREEN_W : ℤ) : ℚ)
    ∧ (resolve_hazards c9Lane c9Player (3/10)).current_col = COLS
    ∧ ¬((resolve_hazards c9Lane c9Player (3/10)).current_col < COLS) := by
  have h := (resolve_logs_carry c9Lane c9Player (3/10) ⟨400, 150, 80, 1⟩
    rfl rfl rfl rfl c9_find).2
    (by norm_num [c9Player, Player.reset, SCREEN_W])
  have hcol : (resolve_hazards c9Lane c9Player (3/10)).current_col = COLS := by
    rw [h]
    show ⌊(c9Player.x + 80 * ((1 : ℤ) : ℚ) * (3/10)) / (TILE : ℚ)⌋ = COLS
    norm_num [c9Player, Player.reset, TILE, COLS, SCREEN_W]
  refine ⟨by rw [h]; rfl, ?_, hcol, by rw [hcol]; omega⟩
  rw [h]
  show c9Player.x + 80 * ((1 : ℤ) : ℚ) * (3/10) = ((SCREEN_W : ℤ) : ℚ)
  norm_num [c9Player, Player.reset, SCREEN_W]

/-- Resolution on a river lane keeps an alive player inside the horizontal
playable bounds. -/
theorem resolve_river_alive_bounds (lane : Lane) (p : Player) (dt : ℚ)
    (hd : p.dead = false) (hm : p.moving = false) (ht : lane.type = LaneType.river)
    (hx0 : 0 ≤ p.x) (hxW : p.x ≤ ((SCREEN_W : ℤ) : ℚ))
    (halive : (resolve_hazards lane p dt).dead = false) :
    0 ≤ (resolve_hazards lane p dt).x
    ∧ (resolve_hazards lane p dt).x ≤ ((SCREEN_W : ℤ) : ℚ) := by
  rcases hmode : lane.river_mode with _ | mode
  · have hcore : resolve_hazards lane p dt = { p with dead := true } := by
      simp only [resolve_hazards, hd, hm, ht, hmode, Bool.false_eq_true, if_false, if_true,
        eq_self_iff_true,
        show (LaneType.river = LaneType.road) = False from by simp,
        show ((none : Option RiverMode) = some RiverMode.pads) = False from by simp,
        show ((none : Option RiverMode) = some RiverMode.logs) = False from by simp]
    rw [hcore] at halive
    simp at halive
  · cases mode with
    | pads =>
      have hcore : resolve_hazards lane p dt
          = (if (lane.lilypads.any fun col =>
                decide ((p.world_pos_rest.1 - ((col : ℚ) * (TILE : ℚ) + (TILE : ℚ) * (1/2)))^2
                  + (p.world_pos_rest.2 - (((lane.row * TILE : ℤ) : ℚ) + (TILE : ℚ) * (1/2)))^2
                  ≤ ((TILE : ℚ) * (34/100) * (92/100))^2))
             then (let p1 := if ((0 : ℚ) ≠ 0) then { p with x := p.x + 0 } else p
                   if p1.x < 0 ∨ (SCREEN_W : ℚ) < p1.x then { p1 with dead := true } else p1)
             else { p with dead := true }) := by
        simp only [resolve_hazards, hd, hm, ht, hmode, Bool.false_eq_true, if_false, if_true,
          eq_self_iff_true,
          show (LaneType.river = LaneType.road) = False from by simp,
          show ((some RiverMode.pads : Option RiverMode) = some RiverMode.logs) = False
            from by simp]
      rw [hcore] at halive ⊢
      simp only [if_neg (show ¬((0 : ℚ) ≠ 0) from by norm_num)] at halive ⊢
      split_ifs at halive ⊢ with h1 h2 <;>
        first
        | exact ⟨hx0, hxW⟩
        | simp at halive
    | logs =>
      rcases hfind : lane.logs.find? (fun lg =>
          p.hitbox_world_rest.colliderect (lg.rect_world (lane.row * TILE))) with _ | l
      · have hcore : resolve_hazards lane p dt = { p with dead := true } := by
          simp only [resolve_hazards, hd, hm, ht, hmode, hfind]
          rfl
        rw [hcore] at halive
        simp at halive
      · have hcarry := resolve_logs_carry lane p dt l hd hm ht hmode hfind
        by_cases hb : p.x + l.speed * (l.dir : ℚ) * dt < 0
            ∨ (SCREEN_W : ℚ) < p.x + l.speed * (l.dir : ℚ) * dt
        · rw [hcarry.1 hb] at halive
          simp at halive
        · rw [hcarry.2 hb]
          push_neg at hb
          constructor
          · show 0 ≤ p.x + l.speed * (l.dir : ℚ) * dt
            exact hb.1
          · show p.x + l.speed * (l.dir : ℚ) * dt ≤ ((SCREEN_W : ℤ) : ℚ)
            exact hb.2

/-- Column bound from the horizontal bounds. -/
theorem current_col_le_COLS {x : ℚ} (h0 : 0 ≤ x) (hW : x ≤ ((SCREEN_W : ℤ) : ℚ)) :
    0 ≤ ⌊x / (TILE : ℚ)⌋ ∧ ⌊x / (TILE : ℚ)⌋ ≤ COLS := by
  have hT : ((TILE : ℤ) : ℚ) = 48 := by norm_num [TILE]
  have hW480 : x ≤ 480 := by
    have hWq : ((SCREEN_W : ℤ) : ℚ) = 480 := by norm_num [SCREEN_W]
    rw [hWq] at hW
    exact hW
  have hC : COLS = 10 := by decide
  constructor
  · refine Int.le_floor.mpr ?_
    rw [hT]
    positivity
  · rw [hC]
    have hlt : ⌊x / (TILE : ℚ)⌋ < 11 := by
      refine Int.floor_lt.mpr ?_
      rw [hT, div_lt_iff₀ (by norm_num : (0:ℚ) < 48)]
      push_cast
      linarith
    omega

/-- C9 (amended: the alive column index stays in `[0, COLS]`, with COLS
attained only at x = SCREEN_W exactly): river resolution keeps an alive
player x inside `[0, SCREEN_W]` and hence its column inside `[0, COLS]`;
every newly started transit targets a column inside `[0, COLS)`; and a
completed hop lands exactly at the target cell center. -/
theorem c9_alive_column_bound :
    (∀ (lane : Lane) (p : Player) (dt : ℚ),
      p.dead = false → p.moving = false → lane.type = LaneType.river →
      0 ≤ p.x → p.x ≤ ((SCREEN_W : ℤ) : ℚ) →
      (resolve_hazards lane p dt).dead = false →
      0 ≤ (resolve_hazards lane p dt).x
      ∧ (resolve_hazards lane p dt).x ≤ ((SCREEN_W : ℤ) : ℚ)
      ∧ 0 ≤ (resolve_hazards lane p dt).current_col
      ∧ (resolve_hazards lane p dt).current_col ≤ COLS)
    ∧ (∀ (p : Player) (dcol drow : ℤ),
      p.moving = false → (p.try_move dcol drow).moving = true →
      0 ≤ ⌊(p.try_move dcol drow).target_x / (TILE : ℚ)⌋
      ∧ ⌊(p.try_move dcol drow).target_x / (TILE : ℚ)⌋ < COLS)
    ∧ (∀ (p : Player) (dt : ℚ),
      p.dead = false → p.moving = true → 1 ≤ p.t + dt / HOP_TIME →
      (p.update dt).x = p.target_x ∧ (p.update dt).moving = false) := by
  refine ⟨?_, ?_, ?_⟩
  · intro lane p dt hd hm ht hx0 hxW halive
    obtain ⟨h0, hW⟩ := resolve_river_alive_bounds lane p dt hd hm ht hx0 hxW halive
    obtain ⟨hc0, hcC⟩ := current_col_le_COLS h0 hW
    exact ⟨h0, hW, hc0, hcC⟩
  · intro p dcol drow hm hmoved
    simp only [Player.try_move] at hmoved ⊢
    split_ifs at hmoved ⊢ with h1 h2 h3
    · exact absurd hmoved (by simp [hm])
    · exact absurd hmoved (by simp [hm])
    · exact absurd hmoved (by simp [hm])
    · have hT : ((TILE : ℤ) : ℚ) = 48 := by norm_num [TILE]
      have hC : COLS = 10 := by decide
      have hfl : ⌊(((p.current_col + dcol) * TILE + TILE / 2 : ℤ) : ℚ) / (TILE : ℚ)⌋
          = p.current_col + dcol := by
        rw [Int.floor_eq_iff]
        constructor
        · rw [le_div_iff (by rw [hT]; norm_num : (0:ℚ) < (TILE : ℚ))]
          push_cast [show TILE = 48 from rfl]
          ring_nf
          linarith
        · rw [div_lt_iff (by rw [hT]; norm_num : (0:ℚ) < (TILE : ℚ))]
          push_cast [show TILE = 48 from rfl]
          ring_nf
          linarith
      rw [hfl]
      rw [hC] at h2
      push_neg at h2
      omega
  · intro p dt hd hm h1
    simp only [Player.update, hd, hm, Bool.false_eq_true, if_false, if_true]
    rw [if_pos h1]
    exact ⟨rfl, rfl⟩

/-- Witness for C9: the bounds instantiated on the Scenario 3 situation
(alive after a carry of 8), and a completed hop landing on its target. -/
theorem c9_alive_column_bound_witness :
    (0 ≤ (resolve_hazards scn3Lane scn3Player (1/10)).x
      ∧ (resolve_hazards scn3Lane scn3Player (1/10)).x ≤ ((SCREEN_W : ℤ) : ℚ)
      ∧ 0 ≤ (resolve_hazards scn3Lane scn3Player (1/10)).current_col
      ∧ (resolve_hazards scn3Lane scn3Player (1/10)).current_col ≤ COLS)
    ∧ (({ Player.reset with moving := true, t := 1, target_x := 312 } : Player).update 0).x
        = 312 := by
  have halive : (resolve_hazards scn3Lane scn3Player (1/10)).dead = false := by
    rw [(resolve_logs_carry scn3Lane scn3Player (1/10) ⟨100, 150, 80, 1⟩
      rfl rfl rfl rfl scn3_find).2
      (by norm_num [scn3Player, Player.reset, SCREEN_W])]
    rfl
  constructor
  · exact c9_alive_column_bound.1 scn3Lane scn3Player (1/10) rfl rfl rfl
      (by norm_num [scn3Player, Player.reset])
      (by norm_num [scn3Player, Player.reset, SCREEN_W]) halive
  · exact (c9_alive_column_bound.2.2 { Player.reset with moving := true, t := 1, target_x := 312 }
      0 rfl rfl (by norm_num [HOP_TIME])).1

-- ---------- Association-list lookup helpers ----------

theorem lookup_cons_ne (k r : ℤ) (v : LaneSpec) (t : List (ℤ × LaneSpec)) (h : r ≠ k) :
    List.lookup r ((k, v) :: t) = List.lookup r t := by
  simp [List.lookup, beq_eq_false_iff_ne.mpr h]

theorem lookup_cons_self (k : ℤ) (v : LaneSpec) (t : List (ℤ × LaneSpec)) :
    List.lookup k ((k, v) :: t) = some v := by
  simp [List.lookup]

theorem lookup_append_single (l : List (ℤ × LaneSpec)) (k : ℤ) (v : LaneSpec) (r : ℤ) :
    List.lookup r (l ++ [(k, v)])
      = (List.lookup r l).or (if r = k then some v else none) := by
  induction l with
  | nil =>
    by_cases h : r = k
    · subst h; simp [lookup_cons_self]
    · simp [List.lookup, beq_eq_false_iff_ne.mpr h, h]
  | cons kv t ih =>
    obtain ⟨k', v'⟩ := kv
    by_cases h : r = k'
    · subst h; simp [lookup_cons_self]
    · rw [List.cons_append, lookup_cons_ne _ _ _ _ h, lookup_cons_ne _ _ _ _ h, ih]

theorem lookup_none_of_keys_lt (l : List (ℤ × LaneSpec)) (b r : ℤ)
    (hk : ∀ kv ∈ l, kv.1 ≤ b) (hr : b < r) : List.lookup r l = none := by
  induction l with
  | nil => rfl
  | cons kv t ih =>
    obtain ⟨k, v⟩ := kv
    have hne : r ≠ k := by
      have := hk (k, v) (List.mem_cons_self _ _)
      intro h
      omega
    rw [lookup_cons_ne _ _ _ _ hne]
    exact ih (fun kv hkv => hk kv (List.mem_cons_of_mem _ hkv))

/-- Lookup in the pruned dict: present exactly when the key survives the
key-range filter. -/
theorem lookup_filter_prune (l : List (ℤ × LaneSpec)) (pb pa r : ℤ) :
    List.lookup r (l.filter fun kv => decide (pb ≤ kv.1) && decide (kv.1 ≤ pa))
      = if pb ≤ r ∧ r ≤ pa then List.lookup r l else none := by
  induction l with
  | nil => simp
  | cons kv t ih =>
    obtain ⟨k, v⟩ := kv
    by_cases hk : pb ≤ k ∧ k ≤ pa
    · rw [List.filter_cons_of_pos (by simp [hk.1, hk.2])]
      by_cases hr : r = k
      · subst hr
        rw [lookup_cons_self, lookup_cons_self, if_pos hk]
      · rw [lookup_cons_ne _ _ _ _ hr, lookup_cons_ne _ _ _ _ hr, ih]
    · rw [List.filter_cons_of_neg (by simpa using fun h1 h2 => hk ⟨h1, h2⟩)]
      by_cases hr : r = k
      · subst hr
        rw [ih, if_neg hk, if_neg hk]
      · rw [lookup_cons_ne _ _ _ _ hr, ih]

-- ---------- Policy iteration shift lemmas ----------

theorem gen_iter_succ_shift (g : GenState) (st : ℕ → Draw) (i : ℕ) (k : ℕ) :
    gen_iter g st i (k + 1) = gen_iter (choose_lane g (st i)).2 st (i + 1) k := by
  induction k with
  | zero => rfl
  | succ k ih =>
    show (choose_lane (gen_iter g st i (k + 1)) (st (i + (k + 1)))).2
      = (choose_lane (gen_iter (choose_lane g (st i)).2 st (i + 1) k) (st (i + 1 + k))).2
    rw [ih, show i + (k + 1) = i + 1 + k from by omega]

theorem spec_iter_succ_shift (g : GenState) (st : ℕ → Draw) (i : ℕ) (k : ℕ) :
    spec_iter g st i (k + 1) = spec_iter (choose_lane g (st i)).2 st (i + 1) k := by
  unfold spec_iter
  rw [gen_iter_succ_shift, show i + (k + 1) = i + 1 + k from by omega]

-- ---------- extend_high lemmas ----------

theorem extend_high_min_row (st : ℕ → Draw) (fuel : ℕ) :
    ∀ (i : ℕ) (w : WorldGen), (extend_high st i w fuel).min_row = w.min_row := by
  induction fuel with
  | zero => intro i w; rfl
  | succ fuel ih => intro i w; exact ih (i + 1) _

theorem extend_high_max_row (st : ℕ → Draw) (fuel : ℕ) :
    ∀ (i : ℕ) (w : WorldGen), (extend_high st i w fuel).max_row = w.max_row + fuel := by
  induction fuel with
  | zero => intro i w; simp [extend_high]
  | succ fuel ih =>
    intro i w
    show (extend_high st (i + 1) _ fuel).max_row = _
    rw [ih]
    push_cast
    ring

theorem extend_high_keys (st : ℕ → Draw) (fuel : ℕ) :
    ∀ (i : ℕ) (w : WorldGen), (∀ kv ∈ w.lanes, kv.1 ≤ w.max_row) →
      ∀ kv ∈ (extend_high st i w fuel).lanes, kv.1 ≤ w.max_row + fuel := by
  induction fuel with
  | zero => intro i w hk kv hkv; simpa using hk kv hkv
  | succ fuel ih =>
    intro i w hk kv hkv
    have hk' : ∀ kv ∈ (w.lanes ++ [(w.max_row + 1, (choose_lane w.gen (st i)).1)]),
        kv.1 ≤ w.max_row + 1 := by
      intro kv hkv
      rcases List.mem_append.mp hkv with h | h
      · have := hk kv h; omega
      · simp only [List.mem_singleton] at h
        subst h
        simp
    have := ih (i + 1) ⟨w.lanes ++ [(w.max_row + 1, (choose_lane w.gen (st i)).1)],
      w.min_row, w.max_row + 1, (choose_lane w.gen (st i)).2⟩ hk' kv hkv
    push_cast at this ⊢
    omega

theorem extend_high_lookup_old (st : ℕ → Draw) (fuel : ℕ) :
    ∀ (i : ℕ) (w : WorldGen) (r : ℤ), (∀ kv ∈ w.lanes, kv.1 ≤ w.max_row) →
      r ≤ w.max_row →
      List.lookup r (extend_high st i w fuel).lanes = List.lookup r w.lanes := by
  induction fuel with
  | zero => intro i w r _ _; rfl
  | succ fuel ih =>
    intro i w r hk hr
    have hk' : ∀ kv ∈ (w.lanes ++ [(w.max_row + 1, (choose_lane w.gen (st i)).1)]),
        kv.1 ≤ w.max_row + 1 := by
      intro kv hkv
      rcases List.mem_append.mp hkv with h | h
      · have := hk kv h; omega
      · simp only [List.mem_singleton] at h
        subst h
        simp
    have hstep := ih (i + 1) ⟨w.lanes ++ [(w.max_row + 1, (choose_lane w.gen (st i)).1)],
      w.min_row, w.max_row + 1, (choose_lane w.gen (st i)).2⟩ r hk'
      (by show r ≤ w.max_row + 1; omega)
    show List.lookup r (extend_high st (i + 1) _ fuel).lanes = _
    rw [hstep]
    show List.lookup r (w.lanes ++ [(w.max_row + 1, (choose_lane w.gen (st i)).1)]) = _
    rw [lookup_append_single, if_neg (by omega : ¬ r = w.max_row + 1)]
    exact Option.or_none

theorem extend_high_lookup_new (st : ℕ → Draw) (fuel : ℕ) :
    ∀ (i : ℕ) (w : WorldGen) (k : ℕ), (∀ kv ∈ w.lanes, kv.1 ≤ w.max_row) →
      k < fuel →
      List.lookup (w.max_row + 1 + (k : ℤ)) (extend_high st i w fuel).lanes
        = some (spec_iter w.gen st i k) := by
  induction fuel with
  | zero => intro i w k _ hkf; omega
  | succ fuel ih =>
    intro i w k hk hkf
    have hk' : ∀ kv ∈ (w.lanes ++ [(w.max_row + 1, (choose_lane w.gen (st i)).1)]),
        kv.1 ≤ w.max_row + 1 := by
      intro kv hkv
      rcases List.mem_append.mp hkv with h | h
      · have := hk kv h; omega
      · simp only [List.mem_singleton] at h
        subst h
        simp
    cases k with
    | zero =>
      have hstep := extend_high_lookup_old st fuel (i + 1)
        ⟨w.lanes ++ [(w.max_row + 1, (choose_lane w.gen (st i)).1)],
          w.min_row, w.max_row + 1, (choose_lane w.gen (st i)).2⟩ (w.max_row + 1)
        hk' (by show w.max_row + 1 ≤ w.max_row + 1; omega)
      show List.lookup (w.max_row + 1 + ((0 : ℕ) : ℤ))
        (extend_high st (i + 1) _ fuel).lanes = _
      have h0 : w.max_row + 1 + ((0 : ℕ) : ℤ) = w.max_row + 1 := by push_cast; ring
      rw [h0, hstep]
      show List.lookup (w.max_row + 1)
        (w.lanes ++ [(w.max_row + 1, (choose_lane w.gen (st i)).1)]) = _
      rw [lookup_append_single,
        lookup_none_of_keys_lt w.lanes w.max_row (w.max_row + 1) hk (by omega),
        if_pos rfl]
      rfl
    | succ j =>
      have hstep := ih (i + 1) ⟨w.lanes ++ [(w.max_row + 1, (choose_lane w.gen (st i)).1)],
        w.min_row, w.max_row + 1, (choose_lane w.gen (st i)).2⟩ j hk' (by omega)
      show List.lookup (w.max_row + 1 + ((j + 1 : ℕ) : ℤ))
        (extend_high st (i + 1) _ fuel).lanes = _
      have harow : w.max_row + 1 + ((j + 1 : ℕ) : ℤ) = (w.max_row + 1) + 1 + (j : ℤ) := by
        push_cast; ring
      rw [harow, hstep, spec_iter_succ_shift]

-- ---------- extend_low lemmas ----------

theorem extend_low_min_row (fuel : ℕ) :
    ∀ (w : WorldGen), (extend_low w fuel).min_row = w.min_row - fuel := by
  induction fuel with
  | zero => intro w; simp [extend_low]
  | succ fuel ih =>
    intro w
    show (extend_low _ fuel).min_row = _
    rw [ih]
    push_cast
    ring

theorem extend_low_lookup (fuel : ℕ) :
    ∀ (w : WorldGen) (r : ℤ),
      List.lookup r (extend_low w fuel).lanes
        = if w.min_row - fuel ≤ r ∧ r < w.min_row then some grassSpec
          else List.lookup r w.lanes := by
  induction fuel with
  | zero =>
    intro w r
    rw [if_neg (by omega)]
    rfl
  | succ fuel ih =>
    intro w r
    show List.lookup r (extend_low ⟨(w.min_row - 1, grassSpec) :: w.lanes,
      w.min_row - 1, w.max_row, w.gen⟩ fuel).lanes = _
    rw [ih]
    by_cases h1 : (w.min_row - 1) - (fuel : ℤ) ≤ r ∧ r < w.min_row - 1
    · rw [if_pos h1, if_pos (by push_cast at h1 ⊢; omega)]
    · rw [if_neg h1]
      by_cases h2 : r = w.min_row - 1
      · subst h2
        rw [lookup_cons_self, if_pos (by push_cast; omega)]
      · rw [lookup_cons_ne _ _ _ _ h2, if_neg (by push_cast at h1 ⊢; omega)]

-- ---------- C6 ----------

/-- C6: after `ensure_rows(player_row)` (called, as in the main loop, on a
world whose lane keys lie within the tracked window, whose window is fully
populated, and whose window contains the player row), a lane exists for
every row within SAFE_MARGIN_ROWS of the player, no lane exists below
`player_row - (SAFE_MARGIN_ROWS + 6)` or above
`player_row + (SAFE_MARGIN_ROWS + 10)`, every lane newly created at the
low end is grass, and the high end was extended one row at a time through
successive `_choose_lane` calls. -/
theorem c6_ensure_rows_window (w : WorldGen) (st : ℕ → Draw) (i : ℕ) (pr : ℤ)
    (hkeys : ∀ kv ∈ w.lanes, w.min_row ≤ kv.1 ∧ kv.1 ≤ w.max_row)
    (hcov : ∀ r : ℤ, w.min_row ≤ r → r ≤ w.max_row →
      (List.lookup r w.lanes).isSome = true)
    (hlo : w.min_row ≤ pr) (hhi : pr ≤ w.max_row) :
    (∀ r : ℤ, pr - SAFE_MARGIN_ROWS ≤ r → r ≤ pr + SAFE_MARGIN_ROWS →
      (List.lookup r (ensure_rows w st i pr).lanes).isSome = true)
    ∧ (∀ r : ℤ, r < pr - (SAFE_MARGIN_ROWS + 6) ∨ pr + (SAFE_MARGIN_ROWS + 10) < r →
      List.lookup r (ensure_rows w st i pr).lanes = none)
    ∧ (∀ r : ℤ, pr - SAFE_MARGIN_ROWS ≤ r → r < w.min_row →
      List.lookup r (ensure_rows w st i pr).lanes = some grassSpec)
    ∧ (∀ k : ℕ, (k : ℤ) < pr + SAFE_MARGIN_ROWS - w.max_row →
      List.lookup (w.max_row + 1 + (k : ℤ)) (ensure_rows w st i pr).lanes
        = some (spec_iter w.gen st i k)) := by
  have hS : SAFE_MARGIN_ROWS = 18 := rfl
  have hkhi : ∀ kv ∈ w.lanes, kv.1 ≤ w.max_row := fun kv hkv => (hkeys kv hkv).2
  set fuel1 := (pr + SAFE_MARGIN_ROWS - w.max_row).toNat with hfuel1
  set w1 := extend_high st i w fuel1 with hw1
  set fuel2 := (w1.min_row - (pr - SAFE_MARGIN_ROWS)).toNat with hfuel2
  set w2 := extend_low w1 fuel2 with hw2
  have hlanes : (ensure_rows w st i pr).lanes
      = w2.lanes.filter (fun kv =>
          decide (pr - (SAFE_MARGIN_ROWS + 6) ≤ kv.1)
          && decide (kv.1 ≤ pr + (SAFE_MARGIN_ROWS + 10))) := rfl
  have hw1min : w1.min_row = w.min_row := extend_high_min_row st fuel1 i w
  have hw1max : w1.max_row = w.max_row + fuel1 := extend_high_max_row st fuel1 i w
  have hfuel1Z : (fuel1 : ℤ) = max (pr + SAFE_MARGIN_ROWS - w.max_row) 0 := by
    rw [hfuel1]
    exact Int.toNat_eq_max _
  have hfuel2Z : (fuel2 : ℤ) = max (w.min_row - (pr - SAFE_MARGIN_ROWS)) 0 := by
    rw [hfuel2, hw1min]
    exact Int.toNat_eq_max _
  have hw2lanes : ∀ r : ℤ, List.lookup r w2.lanes
      = if w1.min_row - fuel2 ≤ r ∧ r < w1.min_row then some grassSpec
        else List.lookup r w1.lanes := fun r => extend_low_lookup fuel2 w1 r
  have hres : ∀ r : ℤ, List.lookup r (ensure_rows w st i pr).lanes
      = if pr - (SAFE_MARGIN_ROWS + 6) ≤ r ∧ r ≤ pr + (SAFE_MARGIN_ROWS + 10)
        then List.lookup r w2.lanes else none := by
    intro r
    rw [hlanes, lookup_filter_prune]
  refine ⟨?_, ?_, ?_, ?_⟩
  · intro r h1 h2
    rw [hres r, if_pos (by omega), hw2lanes r]
    by_cases hrlow : r < w.min_row
    · rw [if_pos (by rw [hw1min]; omega)]
      rfl
    · rw [if_neg (by rw [hw1min]; omega)]
      by_cases hrhigh : r ≤ w.max_row
      · rw [hw1, extend_high_lookup_old st fuel1 i w r hkhi hrhigh]
        exact hcov r (by omega) hrhigh
      · have hk : r = w.max_row + 1 + (((r - w.max_row - 1).toNat : ℕ) : ℤ) := by omega
        have hklt : ((r - w.max_row - 1).toNat : ℤ) < fuel1 := by omega
        rw [hk, hw1, extend_high_lookup_new st fuel1 i w _ hkhi (by omega)]
        rfl
  · intro r h
    rw [hres r, if_neg (by omega)]
  · intro r h1 h2
    rw [hres r, if_pos (by omega), hw2lanes r, if_pos (by rw [hw1min]; omega)]
  · intro k hkf
    rw [hres _, if_pos (by omega), hw2lanes _, if_neg (by rw [hw1min]; omega), hw1,
      extend_high_lookup_new st fuel1 i w k hkhi (by omega)]

/-- Witness for C6: a one-lane world at row 0 with the player on it. -/
theorem c6_ensure_rows_window_witness :
    ((List.lookup (0 : ℤ)
        (ensure_rows ⟨[(0, grassSpec)], 0, 0, ⟨0, 999, [], 5⟩⟩
          (fun _ => ⟨0, 0, 2, 0⟩) 0 0).lanes).isSome = true)
    ∧ List.lookup (30 : ℤ)
        (ensure_rows ⟨[(0, grassSpec)], 0, 0, ⟨0, 999, [], 5⟩⟩
          (fun _ => ⟨0, 0, 2, 0⟩) 0 0).lanes = none := by
  have h := c6_ensure_rows_window ⟨[(0, grassSpec)], 0, 0, ⟨0, 999, [], 5⟩⟩
    (fun _ => ⟨0, 0, 2, 0⟩) 0 0
    (by intro kv hkv
        simp only [List.mem_singleton] at hkv
        subst hkv
        exact ⟨le_rfl, le_rfl⟩)
    (by intro r h1 h2
        have h0 : r = 0 := le_antisymm h2 h1
        subst h0
        rw [lookup_cons_self]
        rfl)
    le_rfl le_rfl
  exact ⟨h.1 0 (by decide) (by decide), h.2.1 30 (by right; decide)⟩

-- ---------- C10 ----------

/-- One unfolding step of the reset lane-building loop. -/
theorem reset_loop_succ_fst (st : ℕ → Draw) (g : GenState) (i : ℕ) (r : ℤ) (fuel : ℕ) :
    (reset_loop st g i r (fuel + 1)).1
      = if r ≤ 1 then (r, grassSpec) :: (reset_loop st g i (r + 1) fuel).1
        else (r, (choose_lane g (st i)).1)
            :: (reset_loop st (choose_lane g (st i)).2 (i + 1) (r + 1) fuel).1 := by
  show (if r ≤ 1 then
      ((r, grassSpec) :: (reset_loop st g i (r + 1) fuel).1,
        (reset_loop st g i (r + 1) fuel).2)
    else
      ((r, (choose_lane g (st i)).1)
          :: (reset_loop st (choose_lane g (st i)).2 (i + 1) (r + 1) fuel).1,
        (reset_loop st (choose_lane g (st i)).2 (i + 1) (r + 1) fuel).2)).1 = _
  split_ifs <;> rfl

theorem reset_loop_lookup_lt (st : ℕ → Draw) (fuel : ℕ) :
    ∀ (g : GenState) (i : ℕ) (r r' : ℤ), r' < r →
      List.lookup r' (reset_loop st g i r fuel).1 = none := by
  induction fuel with
  | zero => intro g i r r' _; rfl
  | succ fuel ih =>
    intro g i r r' hr
    rw [reset_loop_succ_fst]
    split_ifs with h1
    · rw [lookup_cons_ne _ _ _ _ (by omega)]
      exact ih g i (r + 1) r' (by omega)
    · rw [lookup_cons_ne _ _ _ _ (by omega)]
      exact ih _ (i + 1) (r + 1) r' (by omega)

theorem reset_loop_lookup_ge (st : ℕ → Draw) (fuel : ℕ) :
    ∀ (g : GenState) (i : ℕ) (r r' : ℤ), r + fuel ≤ r' →
      List.lookup r' (reset_loop st g i r fuel).1 = none := by
  induction fuel with
  | zero => intro g i r r' _; rfl
  | succ fuel ih =>
    intro g i r r' hr
    push_cast at hr
    rw [reset_loop_succ_fst]
    split_ifs with h1
    · rw [lookup_cons_ne _ _ _ _ (by omega)]
      exact ih g i (r + 1) r' (by push_cast; omega)
    · rw [lookup_cons_ne _ _ _ _ (by omega)]
      exact ih _ (i + 1) (r + 1) r' (by push_cast; omega)

theorem reset_loop_lookup_grass (st : ℕ → Draw) (fuel : ℕ) :
    ∀ (g : GenState) (i : ℕ) (r r' : ℤ), r ≤ r' → r' < r + fuel → r' ≤ 1 →
      List.lookup r' (reset_loop st g i r fuel).1 = some grassSpec := by
  induction fuel with
  | zero => intro g i r r' _ h2 _; push_cast at h2; omega
  | succ fuel ih =>
    intro g i r r' h1 h2 h3
    push_cast at h2
    rw [reset_loop_succ_fst]
    by_cases hr : r' = r
    · subst hr
      rw [if_pos h3, lookup_cons_self]
    · have hg : r ≤ 1 := by omega
      rw [if_pos hg, lookup_cons_ne _ _ _ _ hr]
      exact ih g i (r + 1) r' (by omega) (by push_cast; omega) h3

theorem reset_loop_lookup_isSome (st : ℕ → Draw) (fuel : ℕ) :
    ∀ (g : GenState) (i : ℕ) (r r' : ℤ), r ≤ r' → r' < r + fuel →
      (List.lookup r' (reset_loop st g i r fuel).1).isSome = true := by
  induction fuel with
  | zero => intro g i r r' _ h2; push_cast at h2; omega
  | succ fuel ih =>
    intro g i r r' h1 h2
    push_cast at h2
    rw [reset_loop_succ_fst]
    split_ifs with hg
    · by_cases hr : r' = r
      · subst hr; rw [lookup_cons_self]; rfl
      · rw [lookup_cons_ne _ _ _ _ hr]
        exact ih g i (r + 1) r' (by omega) (by push_cast; omega)
    · by_cases hr : r' = r
      · subst hr; rw [lookup_cons_self]; rfl
      · rw [lookup_cons_ne _ _ _ _ hr]
        exact ih _ (i + 1) (r + 1) r' (by omega) (by push_cast; omega)

/-- C10: after `World.reset()` every lane with row index at most 1 is
grass, the initial window spans exactly rows -6 through 18, and the player
spawns at row 0. -/
theorem c10_reset_retreat_zone_grass (st : ℕ → Draw) :
    (∀ r : ℤ, -6 ≤ r → r ≤ 1 →
      List.lookup r (World.reset st).lanes = some grassSpec)
    ∧ (∀ r : ℤ, -6 ≤ r → r ≤ 18 →
      (List.lookup r (World.reset st).lanes).isSome = true)
    ∧ (∀ r : ℤ, r < -6 ∨ 18 < r →
      List.lookup r (World.reset st).lanes = none)
    ∧ (World.reset st).min_row = -6 ∧ (World.reset st).max_row = 18
    ∧ Player.reset.row = 0 := by
  refine ⟨?_, ?_, ?_, rfl, rfl, rfl⟩
  · intro r h1 h2
    exact reset_loop_lookup_grass st 25 _ 0 (-6) r h1 (by push_cast; omega) h2
  · intro r h1 h2
    exact reset_loop_lookup_isSome st 25 _ 0 (-6) r h1 (by push_cast; omega)
  · intro r h
    rcases h with h | h
    · exact reset_loop_lookup_lt st 25 _ 0 (-6) r h
    · exact reset_loop_lookup_ge st 25 _ 0 (-6) r (by push_cast; omega)

/-- Witness for C10 at a constant draw stream. -/
theorem c10_reset_retreat_zone_grass_witness :
    List.lookup (0 : ℤ) (World.reset (fun _ => ⟨0, 0, 2, 0⟩)).lanes = some grassSpec
    ∧ (World.reset (fun _ => ⟨0, 0, 2, 0⟩)).max_row = 18 :=
  ⟨(c10_reset_retreat_zone_grass (fun _ => ⟨0, 0, 2, 0⟩)).1 0 (by omega) (by omega),
   (c10_reset_retreat_zone_grass (fun _ => ⟨0, 0, 2, 0⟩)).2.2.2.2.1⟩

end Crossy
